import Mathlib

/-!
# Verification of the vritti-api-nexus onboarding core

Shallow embedding of the onboarding / OAuth-state / session services of the
repository.  Pure TypeScript functions become Lean functions; stateful service
methods become explicit state passing over lists of rows (one list per database
table).  Machine-level collaborators that the services only call through
(bcrypt comparison, HMAC-SHA256, JWT signing, random byte generation) are
abstracted as explicit function parameters, exactly at the call boundary the
source uses; everything the services compute themselves (string splitting, hex
encoding and decoding, branch order, row updates) is translated from the
source.

Time is a `Nat` parameter `now`; a `Date` column is a `Nat`.  A thrown
`HttpException` becomes an `Except Vritti.ApiError` result; service methods that
mutate rows return the result paired with the new table contents, so that an
update performed before a `throw` (no transactions are used in the source) is
visible in the theorem statements.
-/

namespace Vritti

/-- Error taxonomy of the thrown exceptions (`BadRequestException`,
`UnauthorizedException`, `NotFoundException`, `ConflictException`), plus
`rangeError` for the `RangeError` that Node's `crypto.timingSafeEqual` throws
when its two buffers have different byte lengths (that one is not an HTTP
exception and surfaces as an internal error). -/
inductive ApiError where
  | badRequest (msg : String)
  | unauthorized (msg : String)
  | notFound (msg : String)
  | conflict (msg : String)
  | rangeError
deriving Repr, DecidableEq

deriving instance DecidableEq for Except

/-- `true` exactly on `ApiError.unauthorized` results. -/
def isUnauthorizedError {α : Type} : Except ApiError α → Bool
  | .error (.unauthorized _) => true
  | _ => false

/-- `true` exactly on `ApiError.conflict` results. -/
def isConflictError {α : Type} : Except ApiError α → Bool
  | .error (.conflict _) => true
  | _ => false

/-! ## JavaScript string splitting

`s.split('.')` for the single-character separator `'.'`, on the character
list of the string. -/

/-- JavaScript `s.split('.')` on a character list: splits at every `'.'`,
keeping empty groups (`"".split('.') = [""]`). -/
def splitDot : List Char → List (List Char)
  | [] => [[]]
  | c :: rest =>
    if c = '.' then [] :: splitDot rest
    else
      match splitDot rest with
      | [] => [[c]]
      | g :: gs => (c :: g) :: gs

theorem splitDot_ne_nil (l : List Char) : splitDot l ≠ [] := by
  induction l with
  | nil => simp [splitDot]
  | cons c rest ih =>
    simp only [splitDot]
    split
    · simp
    · match h : splitDot rest with
      | [] => simp
      | g :: gs => simp

theorem splitDot_of_not_mem {l : List Char} (h : '.' ∉ l) : splitDot l = [l] := by
  induction l with
  | nil => rfl
  | cons c rest ih =>
    simp only [List.mem_cons, not_or] at h
    have hc : ¬ c = '.' := fun hc => h.1 hc.symm
    simp only [splitDot, if_neg hc, ih h.2]

theorem splitDot_append {l₁ l₂ : List Char} (h : '.' ∉ l₁) :
    splitDot (l₁ ++ '.' :: l₂) = l₁ :: splitDot l₂ := by
  induction l₁ with
  | nil => simp [splitDot]
  | cons c rest ih =>
    simp only [List.mem_cons, not_or] at h
    have hc : ¬ c = '.' := fun hc => h.1 hc.symm
    simp only [List.cons_append, splitDot, if_neg hc, List.append_eq, ih h.2]

/-! ## Hex encoding and decoding (Node `Buffer` semantics)

`hash.digest('hex')` produces two lowercase hex digits per byte.
`Buffer.from(s, 'hex')` decodes pairs of hex digits (either case) and stops at
the first invalid digit or incomplete pair, truncating the buffer. -/

/-- Lowercase hex digit for a value below 16 (`'0'..'9'`, `'a'..'f'`). -/
def hexDigitChar (n : Nat) : Char :=
  if n < 10 then Char.ofNat (48 + n) else Char.ofNat (87 + n)

/-- Value of a hex digit, accepting both cases, `none` for a non-hex char. -/
def hexVal (c : Char) : Option (Fin 16) :=
  if h : 48 ≤ c.toNat ∧ c.toNat ≤ 57 then some ⟨c.toNat - 48, by omega⟩
  else if h' : 97 ≤ c.toNat ∧ c.toNat ≤ 102 then some ⟨c.toNat - 87, by omega⟩
  else if h'' : 65 ≤ c.toNat ∧ c.toNat ≤ 70 then some ⟨c.toNat - 55, by omega⟩
  else none

/-- Lowercase hex encoding of a byte list, as characters. -/
def hexEncodeChars (bs : List (Fin 256)) : List Char :=
  (bs.map fun b => [hexDigitChar (b.val / 16), hexDigitChar (b.val % 16)]).flatten

/-- Lowercase hex encoding of a byte list (`buffer.toString('hex')`,
`hash.digest('hex')`). -/
def hexEncode (bs : List (Fin 256)) : String :=
  String.mk (hexEncodeChars bs)

/-- `Buffer.from(chars, 'hex')`: decode hex digit pairs, stopping (and
truncating) at the first invalid digit or incomplete pair. -/
def hexDecodeChars : List Char → List (Fin 256)
  | c₁ :: c₂ :: rest =>
    match hexVal c₁, hexVal c₂ with
    | some h, some l => ⟨16 * h.val + l.val, by omega⟩ :: hexDecodeChars rest
    | _, _ => []
  | _ => []

theorem hexVal_hexDigitChar : ∀ n : Fin 16, hexVal (hexDigitChar n.val) = some n := by
  decide

theorem hexDigitChar_ne_dot : ∀ n : Fin 16, hexDigitChar n.val ≠ '.' := by
  decide

theorem dot_not_mem_hexEncodeChars (bs : List (Fin 256)) :
    '.' ∉ hexEncodeChars bs := by
  induction bs with
  | nil => simp [hexEncodeChars]
  | cons b rest ih =>
    intro hmem
    simp only [hexEncodeChars, List.map_cons, List.flatten_cons, List.mem_append,
      List.mem_cons, List.not_mem_nil, or_false] at hmem
    rcases hmem with (h | h) | h
    · exact hexDigitChar_ne_dot ⟨b.val / 16, by omega⟩ h.symm
    · exact hexDigitChar_ne_dot ⟨b.val % 16, by omega⟩ h.symm
    · exact ih h

theorem hexDecodeChars_hexEncodeChars (bs : List (Fin 256)) :
    hexDecodeChars (hexEncodeChars bs) = bs := by
  induction bs with
  | nil => rfl
  | cons b rest ih =>
    have h₁ := hexVal_hexDigitChar ⟨b.val / 16, by omega⟩
    have h₂ := hexVal_hexDigitChar ⟨b.val % 16, by omega⟩
    simp only [hexEncodeChars, List.map_cons, List.flatten_cons] at ih ⊢
    simp only [List.cons_append, List.nil_append, hexDecodeChars, h₁, h₂]
    refine List.cons_eq_cons.mpr ⟨?_, ih⟩
    exact Fin.ext (by simp [Nat.div_add_mod])

/-! ## OAuth state service (`OAuthStateService`)

`src/modules/cloud-api/onboarding/services/otp.service.ts` (second class in
the file) over the `oauth_states` table
(`repositories/oauth-state.repository.ts`).  The HMAC-SHA256 keyed by
`CSRF_HMAC_KEY` is abstracted as a function `hmac : String → List (Fin 256)`
returning the raw digest bytes; `hash.digest('hex')` is `hexEncode ∘ hmac`. -/

/-- `OAuthProviderType` Prisma enum. -/
inductive OAuthProviderType where
  | GOOGLE | MICROSOFT | APPLE | FACEBOOK | X
deriving Repr, DecidableEq

/-- Row of the `oauth_states` table (`state_token` carries a unique index,
`id` is the primary key). -/
structure OAuthStateRow where
  id : Nat
  stateToken : String
  provider : OAuthProviderType
  userId : Option String
  codeVerifier : String
  expiresAt : Nat
deriving Repr, DecidableEq

/-- Payload returned by `validateAndConsumeState`
(`interfaces/oauth-state.interface.ts`). -/
structure OAuthStateData where
  provider : OAuthProviderType
  userId : Option String
  codeVerifier : String
deriving Repr, DecidableEq

/-- Raw HMAC-SHA256 digest (32 bytes in reality; the embedding only fixes the
type) of the server-side CSRF secret applied to a string. -/
abbrev HmacFn := String → List (Fin 256)

/-- `OAuthStateService.signStateToken`: `` `${stateToken}.${signature}` `` with
`signature = hmac(stateToken).digest('hex')`. -/
def signStateToken (hmac : HmacFn) (stateToken : String) : String :=
  stateToken ++ "." ++ hexEncode (hmac stateToken)

/-- Node `crypto.timingSafeEqual`: compares two buffers byte for byte, but
throws a `RangeError` (the `Except.error`) when the byte lengths differ. -/
def timingSafeEqual (a b : List (Fin 256)) : Except Unit Bool :=
  if a.length = b.length then .ok (decide (a = b)) else .error ()

/-- `OAuthStateService.verifyStateToken`: split on `'.'`, return `false` unless
there are exactly two parts, then constant-time-compare the hex-decoded
provided signature against the hex-decoded expected hex digest.  The
`Except.error` case is the `RangeError` thrown by `timingSafeEqual` on a
length mismatch. -/
def verifyStateToken (hmac : HmacFn) (signedStateToken : String) : Except Unit Bool :=
  match splitDot signedStateToken.data with
  | [stateToken, providedSignature] =>
    timingSafeEqual (hexDecodeChars providedSignature)
      (hexDecodeChars (hexEncode (hmac (String.mk stateToken))).data)
  | _ => .ok false

/-- `OAuthStateRepository.findByToken`: Prisma `findOne` on the unique
`stateToken` column — the first row with that token. -/
def findByToken (store : List OAuthStateRow) (token : String) : Option OAuthStateRow :=
  store.find? fun r => r.stateToken == token

/-- Prisma `delete({ where: { id } })` on `oauth_states`. -/
def deleteStateById (store : List OAuthStateRow) (id : Nat) : List OAuthStateRow :=
  store.filter fun r => r.id != id

/-- `OAuthStateService.generateState`: sign the fresh random token, store the
signed token with a 10-minute expiry, return it.  The random 32 bytes are
abstracted as the hex string `stateToken` (64 lowercase hex characters in
reality). -/
def generateState (hmac : HmacFn) (newId : Nat) (stateToken : String) (now : Nat)
    (provider : OAuthProviderType) (userId : Option String) (codeVerifier : String)
    (store : List OAuthStateRow) : String × List OAuthStateRow :=
  let signedStateToken := signStateToken hmac stateToken
  let expiresAt := now + 10 * 60 * 1000
  (signedStateToken,
    store ++ [{ id := newId, stateToken := signedStateToken, provider := provider,
                userId := userId, codeVerifier := codeVerifier, expiresAt := expiresAt }])

/-- `OAuthStateService.validateAndConsumeState`: verify the HMAC signature,
look the signed token up, delete-and-fail on expiry, delete-and-return on
success (one-time use).  The table is returned alongside the result because
the expiry branch deletes the row and then throws. -/
def validateAndConsumeState (hmac : HmacFn) (now : Nat) (store : List OAuthStateRow)
    (stateToken : String) : Except ApiError OAuthStateData × List OAuthStateRow :=
  match verifyStateToken hmac stateToken with
  | .error _ => (.error .rangeError, store)
  | .ok false => (.error (.unauthorized "Invalid state token"), store)
  | .ok true =>
    match findByToken store stateToken with
    | none => (.error (.unauthorized "Invalid or expired state token"), store)
    | some stateRecord =>
      if now > stateRecord.expiresAt then
        (.error (.unauthorized "State token expired"), deleteStateById store stateRecord.id)
      else
        (.ok { provider := stateRecord.provider, userId := stateRecord.userId,
               codeVerifier := stateRecord.codeVerifier },
         deleteStateById store stateRecord.id)

theorem timingSafeEqual_self (a : List (Fin 256)) : timingSafeEqual a a = .ok true := by
  simp [timingSafeEqual]

/-- A token produced by `signStateToken` from a dot-free base always passes
`verifyStateToken` under the same key. -/
theorem verifyStateToken_signStateToken (hmac : HmacFn) (base : String)
    (hbase : '.' ∉ base.data) :
    verifyStateToken hmac (signStateToken hmac base) = .ok true := by
  have hdata : (signStateToken hmac base).data =
      base.data ++ '.' :: hexEncodeChars (hmac base) := by
    simp [signStateToken, hexEncode, String.data_append]
  have hsplit : splitDot (signStateToken hmac base).data =
      [base.data, hexEncodeChars (hmac base)] := by
    rw [hdata, splitDot_append hbase,
      splitDot_of_not_mem (dot_not_mem_hexEncodeChars (hmac base))]
  have hmk : String.mk base.data = base := by
    cases base; rfl
  rw [verifyStateToken, hsplit]
  simp only [hmk, hexEncode, hexDecodeChars_hexEncodeChars, timingSafeEqual_self]

theorem findByToken_eq_some {store : List OAuthStateRow} {row : OAuthStateRow}
    (hmem : row ∈ store)
    (huniq : ∀ r ∈ store, r.stateToken = row.stateToken → r = row) :
    findByToken store row.stateToken = some row := by
  induction store with
  | nil => cases hmem
  | cons a as ih =>
    by_cases ha : a.stateToken = row.stateToken
    · have : a = row := huniq a (List.mem_cons_self a as) ha
      subst this
      simp [findByToken, List.find?]
    · have hane : (a.stateToken == row.stateToken) = false := by
        simpa using ha
      have hmem' : row ∈ as := by
        rcases List.mem_cons.mp hmem with h | h
        · exact absurd (h ▸ rfl) ha
        · exact h
      have huniq' : ∀ r ∈ as, r.stateToken = row.stateToken → r = row :=
        fun r hr => huniq r (List.mem_cons_of_mem a hr)
      simpa [findByToken, List.find?, hane] using ih hmem' huniq'

theorem findByToken_deleteStateById {store : List OAuthStateRow} {row : OAuthStateRow}
    (huniq : ∀ r ∈ store, r.stateToken = row.stateToken → r = row) :
    findByToken (deleteStateById store row.id) row.stateToken = none := by
  rw [findByToken, List.find?_eq_none]
  intro r hr
  simp only [deleteStateById, List.mem_filter, bne_iff_ne, ne_eq] at hr
  intro hbeq
  have heq : r.stateToken = row.stateToken := by simpa using hbeq
  exact hr.2 (congrArg OAuthStateRow.id (huniq r hr.1 heq))

/-! ## OAuth orchestrator callback (`OAuthService.handleCallback`)

`services/oauth.service.ts`.  Only the OAuth-state effects are of interest;
the downstream steps (code exchange, profile fetch, find-or-create user,
provider link upsert, onboarding-token minting) never read or write the
`oauth_states` table and are abstracted as one fallible continuation
`rest`. -/

/-- Result of a successful OAuth callback (`OAuthResponseDto`, reduced to the
fields the callback decides). -/
structure OAuthResult where
  onboardingToken : String
  userId : String
  isNewUser : Bool
deriving Repr, DecidableEq

/-- `OAuthService.handleCallback`: consume the state token, then check the
provider recorded in the state against the callback's provider, then run the
downstream steps (`rest`: code exchange, profile fetch, user resolution,
provider linking, token minting — none of them touches `oauth_states`). -/
def handleCallback (hmac : HmacFn) (now : Nat) (store : List OAuthStateRow)
    (provider : OAuthProviderType) (state : String)
    (rest : OAuthStateData → Except ApiError OAuthResult) :
    Except ApiError OAuthResult × List OAuthStateRow :=
  match validateAndConsumeState hmac now store state with
  | (.error e, store') => (.error e, store')
  | (.ok stateData, store') =>
    if stateData.provider ≠ provider then
      (.error (.unauthorized "Provider mismatch"), store')
    else
      (rest stateData, store')

/-! ## Claims C1, C7, C10 -/

/-- **C1.** For every stored OAuth state token (of the signed shape
`generateState` persists, under the table's unique index on `state_token`):
the first `validateAndConsumeState` call on an unexpired stored token returns
the payload `{provider, userId?, codeVerifier}` and deletes the row; a second
call with the same token fails Unauthorized; and a call on an expired stored
token deletes the row and fails Unauthorized. -/
theorem oauthState_one_time_use (hmac : HmacFn) (now : Nat) (store : List OAuthStateRow)
    (row : OAuthStateRow) (base : String)
    (hmem : row ∈ store)
    (huniq : ∀ r ∈ store, r.stateToken = row.stateToken → r = row)
    (htok : row.stateToken = signStateToken hmac base)
    (hbase : '.' ∉ base.data) :
    (now ≤ row.expiresAt →
      validateAndConsumeState hmac now store row.stateToken =
        (.ok { provider := row.provider, userId := row.userId,
               codeVerifier := row.codeVerifier },
         deleteStateById store row.id) ∧
      (validateAndConsumeState hmac now (deleteStateById store row.id)
          row.stateToken).1 =
        .error (.unauthorized "Invalid or expired state token")) ∧
    (now > row.expiresAt →
      validateAndConsumeState hmac now store row.stateToken =
        (.error (.unauthorized "State token expired"), deleteStateById store row.id)) ∧
    (∀ r ∈ deleteStateById store row.id, r.stateToken ≠ row.stateToken) := by
  have hverify : verifyStateToken hmac row.stateToken = .ok true := by
    rw [htok]; exact verifyStateToken_signStateToken hmac base hbase
  have hfind := findByToken_eq_some hmem huniq
  have hfind2 := findByToken_deleteStateById huniq
  refine ⟨?_, ?_, ?_⟩
  · intro hle
    have hngt : ¬ now > row.expiresAt := by omega
    constructor
    · simp [validateAndConsumeState, hverify, hfind, hngt]
    · simp [validateAndConsumeState, hverify, hfind2]
  · intro hgt
    simp [validateAndConsumeState, hverify, hfind, hgt]
  · intro r hr heq
    simp only [deleteStateById, List.mem_filter, bne_iff_ne, ne_eq] at hr
    exact hr.2 (congrArg OAuthStateRow.id (huniq r hr.1 heq))

/-- Concrete 2-byte HMAC stand-in used by closed witness statements. -/
def demoHmac : HmacFn := fun _ => [(171 : Fin 256), (18 : Fin 256)]

/-- Concrete stored OAuth state row for the C1 witness: signed token
`"ab.ab12"`. -/
def demoStateRow : OAuthStateRow :=
  { id := 1, stateToken := signStateToken demoHmac "ab", provider := .GOOGLE,
    userId := none, codeVerifier := "cv", expiresAt := 100 }

theorem oauthState_one_time_use_witness :
    validateAndConsumeState demoHmac 50 [demoStateRow] demoStateRow.stateToken =
      (.ok { provider := .GOOGLE, userId := none, codeVerifier := "cv" },
       deleteStateById [demoStateRow] demoStateRow.id) ∧
    (validateAndConsumeState demoHmac 50 (deleteStateById [demoStateRow] demoStateRow.id)
        demoStateRow.stateToken).1 =
      .error (.unauthorized "Invalid or expired state token") := by
  have h := oauthState_one_time_use demoHmac 50 [demoStateRow] demoStateRow "ab"
    (by decide) (by decide) rfl (by decide)
  exact h.1 (by decide)

/-- **C7, counterexample.** The input `"a.b"` has exactly two parts and its
signature `"b"` is not the HMAC hex digest of `"a"`, yet `validateAndConsumeState`
does not fail Unauthorized: the provided signature hex-decodes to 0 bytes, the
expected digest to 2 bytes, and Node's `timingSafeEqual` throws a `RangeError`
on the length mismatch. -/
theorem stateToken_reject_counterexample :
    (validateAndConsumeState demoHmac 0 [] "a.b").1 = .error .rangeError ∧
    isUnauthorizedError (validateAndConsumeState demoHmac 0 [] "a.b").1 = false := by
  decide

/-- **C7, amended.** For every input string, `validateAndConsumeState` rejects a
malformed token (not exactly two `'.'`-separated parts) with Unauthorized, and
for a two-part token whose hex-decoded signature differs from the HMAC digest
of its first part it fails before any database lookup: with Unauthorized when
the decoded signature has the digest's byte length, and with the `RangeError`
of `timingSafeEqual` when the byte lengths differ.  In every such case the
result is the same for every store and the store is returned unchanged (no
lookup is performed). -/
theorem stateToken_reject_before_lookup (hmac : HmacFn) (now : Nat) (token : String)
    (store : List OAuthStateRow) :
    ((splitDot token.data).length ≠ 2 →
      validateAndConsumeState hmac now store token =
        (.error (.unauthorized "Invalid state token"), store)) ∧
    (∀ st sig, splitDot token.data = [st, sig] →
      (((hexDecodeChars sig).length = (hmac (String.mk st)).length ∧
          hexDecodeChars sig ≠ hmac (String.mk st)) →
        validateAndConsumeState hmac now store token =
          (.error (.unauthorized "Invalid state token"), store)) ∧
      ((hexDecodeChars sig).length ≠ (hmac (String.mk st)).length →
        validateAndConsumeState hmac now store token =
          (.error .rangeError, store))) := by
  constructor
  · intro hlen
    have hverify : verifyStateToken hmac token = .ok false := by
      rw [verifyStateToken]
      match hl : splitDot token.data with
      | [] => rfl
      | [a] => rfl
      | [a, b] => rw [hl] at hlen; simp at hlen
      | a :: b :: c :: rest => rfl
    simp [validateAndConsumeState, hverify]
  · intro st sig hl
    have hexp : hexDecodeChars (hexEncode (hmac (String.mk st))).data =
        hmac (String.mk st) := hexDecodeChars_hexEncodeChars _
    constructor
    · rintro ⟨hlen, hne⟩
      have hverify : verifyStateToken hmac token = .ok false := by
        rw [verifyStateToken, hl]
        simp [timingSafeEqual, hexp, hlen, hne]
      simp [validateAndConsumeState, hverify]
    · intro hlen
      have hverify : verifyStateToken hmac token = .error () := by
        rw [verifyStateToken, hl]
        simp [timingSafeEqual, hexp, hlen]
      simp [validateAndConsumeState, hverify]

theorem stateToken_reject_before_lookup_witness :
    validateAndConsumeState demoHmac 0 [demoStateRow] "a.bb" =
      (.error .rangeError, [demoStateRow]) := by
  have h := (stateToken_reject_before_lookup demoHmac 0 "a.bb" [demoStateRow]).2
  exact (h ['a'] ['b', 'b'] (by decide)).2 (by decide)

/-- **C10.** `handleCallback` consumes (deletes) the OAuth state row before the
provider-mismatch check and before the code exchange / profile fetch: every
callback that fails after state validation — including a cross-provider replay,
which fails Unauthorized with "Provider mismatch" — leaves the state row
already deleted, so a retry with the same state token fails Unauthorized (the
operation is not atomic with respect to the state store on error). -/
theorem handleCallback_consumes_state_on_error (hmac : HmacFn) (now : Nat)
    (store : List OAuthStateRow) (row : OAuthStateRow) (base : String)
    (hmem : row ∈ store)
    (huniq : ∀ r ∈ store, r.stateToken = row.stateToken → r = row)
    (htok : row.stateToken = signStateToken hmac base)
    (hbase : '.' ∉ base.data)
    (hfresh : now ≤ row.expiresAt) :
    (∀ provider rest, provider ≠ row.provider →
      handleCallback hmac now store provider row.stateToken rest =
        (.error (.unauthorized "Provider mismatch"), deleteStateById store row.id)) ∧
    (∀ rest e,
      rest { provider := row.provider, userId := row.userId,
             codeVerifier := row.codeVerifier } = .error e →
      handleCallback hmac now store row.provider row.stateToken rest =
        (.error e, deleteStateById store row.id)) ∧
    (∀ provider rest,
      (handleCallback hmac now (deleteStateById store row.id) provider
          row.stateToken rest).1 =
        .error (.unauthorized "Invalid or expired state token")) := by
  have hverify : verifyStateToken hmac row.stateToken = .ok true := by
    rw [htok]; exact verifyStateToken_signStateToken hmac base hbase
  have hfind := findByToken_eq_some hmem huniq
  have hfind2 := findByToken_deleteStateById huniq
  have hngt : ¬ now > row.expiresAt := by omega
  have hconsume : validateAndConsumeState hmac now store row.stateToken =
      (.ok { provider := row.provider, userId := row.userId,
             codeVerifier := row.codeVerifier },
       deleteStateById store row.id) := by
    simp [validateAndConsumeState, hverify, hfind, hngt]
  have hretry : validateAndConsumeState hmac now (deleteStateById store row.id)
      row.stateToken =
      (.error (.unauthorized "Invalid or expired state token"),
       deleteStateById store row.id) := by
    simp [validateAndConsumeState, hverify, hfind2]
  refine ⟨?_, ?_, ?_⟩
  · intro provider rest hne
    have : ¬ (row.provider = provider) := fun h => hne h.symm
    simp [handleCallback, hconsume, this]
  · intro rest e hrest
    simp [handleCallback, hconsume, hrest]
  · intro provider rest
    simp [handleCallback, hretry]

theorem handleCallback_consumes_state_on_error_witness :
    handleCallback demoHmac 50 [demoStateRow] .MICROSOFT demoStateRow.stateToken
        (fun _ => .ok { onboardingToken := "t", userId := "u", isNewUser := true }) =
      (.error (.unauthorized "Provider mismatch"),
       deleteStateById [demoStateRow] demoStateRow.id) := by
  have h := handleCallback_consumes_state_on_error demoHmac 50 [demoStateRow]
    demoStateRow "ab" (by decide) (by decide) rfl (by decide) (by decide)
  exact h.1 .MICROSOFT _ (by decide)

/-! ## User model and user service effects

`user/user.repository.ts` and `user/user.service.ts`, reduced to the columns
the onboarding services read or write.  Prisma `update({ where: { id } })` is a
map over the table (the `id` column is the primary key). -/

/-- `OnboardingStep` Prisma enum. -/
inductive OnboardingStep where
  | EMAIL_VERIFICATION | MOBILE_VERIFICATION | SET_PASSWORD | COMPLETE
deriving Repr, DecidableEq

/-- `AccountStatus` Prisma enum. -/
inductive AccountStatus where
  | PENDING_EMAIL | PENDING_MOBILE | ACTIVE | SUSPENDED | DEACTIVATED
deriving Repr, DecidableEq

/-- Row of the `users` table (columns the onboarding services touch). -/
structure UserRec where
  id : String
  email : String
  passwordHash : Option String
  emailVerified : Bool
  emailVerifiedAt : Option Nat
  phone : Option String
  phoneCountry : Option String
  phoneVerified : Bool
  phoneVerifiedAt : Option Nat
  onboardingStep : OnboardingStep
  accountStatus : AccountStatus
  onboardingComplete : Bool
deriving Repr, DecidableEq

/-- JavaScript truthiness of a nullable string column (`null` and `""` are
falsy). -/
def optStrTruthy : Option String → Bool
  | none => false
  | some s => s ≠ ""

/-- `UserRepository.findById` (Prisma `findUnique` on the primary key). -/
def findUserById (users : List UserRec) (id : String) : Option UserRec :=
  users.find? fun u => u.id == id

/-- `UserRepository.findByEmail` (`findOne` on the unique `email` column). -/
def findUserByEmail (users : List UserRec) (email : String) : Option UserRec :=
  users.find? fun u => u.email == email

/-- Prisma `update({ where: { id }, data })`: apply `f` to the row with this
primary key. -/
def updateUserById (users : List UserRec) (id : String) (f : UserRec → UserRec) :
    List UserRec :=
  users.map fun u => if u.id == id then f u else u

/-- `UserRepository.markEmailVerified`. -/
def markEmailVerified (users : List UserRec) (id : String) (now : Nat) : List UserRec :=
  updateUserById users id fun u =>
    { u with emailVerified := true, emailVerifiedAt := some now }

/-- `UserRepository.markPhoneVerified`. -/
def markPhoneVerified (users : List UserRec) (id : String) (phone phoneCountry : String)
    (now : Nat) : List UserRec :=
  updateUserById users id fun u =>
    { u with phone := some phone, phoneCountry := some phoneCountry,
             phoneVerified := true, phoneVerifiedAt := some now }

/-! ## OTP utility and email verification (`OtpService`,
`EmailVerificationService`)

`services/otp.service.ts` (first class) and
`services/email-verification.service.ts` over the `email_verifications` table
(`repositories/email-verification.repository.ts`).  The bcrypt comparison
`EncryptionService.compareOtp` is abstracted as a parameter
`compareOtp : String → String → Bool` (plain OTP against stored hash). -/

/-- Row of the `email_verifications` table. -/
structure EmailVerification where
  id : Nat
  userId : String
  email : String
  otp : String
  attempts : Nat
  expiresAt : Nat
  isVerified : Bool
  verifiedAt : Option Nat
  createdAt : Nat
deriving Repr, DecidableEq

/-- Combined state the email verification service operates on. -/
structure EmailWorld where
  verifications : List EmailVerification
  users : List UserRec
deriving Repr, DecidableEq

/-- Keep the element with the largest key (first such element on ties) —
Prisma `findFirst` with `orderBy: { createdAt: 'desc' }`. -/
def pickNewer {α : Type} (key : α → Nat) (acc : Option α) (x : α) : Option α :=
  match acc with
  | none => some x
  | some a => if key x > key a then some x else some a

/-- First element of maximal key, `none` on the empty list. -/
def findLatestBy {α : Type} (key : α → Nat) (l : List α) : Option α :=
  l.foldl (pickNewer key) none

theorem foldl_pickNewer_mem {α : Type} (key : α → Nat) :
    ∀ (l : List α) (acc : Option α) (v : α),
      l.foldl (pickNewer key) acc = some v → acc = some v ∨ v ∈ l := by
  intro l
  induction l with
  | nil => intro acc v h; exact .inl h
  | cons x xs ih =>
    intro acc v h
    rcases ih (pickNewer key acc x) v h with h' | h'
    · cases acc with
      | none =>
        unfold pickNewer at h'
        exact .inr (List.mem_cons.mpr (.inl (Option.some.inj h').symm))
      | some a =>
        unfold pickNewer at h'
        by_cases hk : key x > key a
        · simp only [if_pos hk] at h'
          exact .inr (List.mem_cons.mpr (.inl (Option.some.inj h').symm))
        · simp only [if_neg hk] at h'
          exact .inl h'
    · exact .inr (List.mem_cons_of_mem x h')

theorem findLatestBy_mem {α : Type} (key : α → Nat) (l : List α) (v : α)
    (h : findLatestBy key l = some v) : v ∈ l := by
  rcases foldl_pickNewer_mem key l none v h with h' | h'
  · cases h'
  · exact h'

/-- `EmailVerificationRepository.findLatestByUserId`: most recent
(`createdAt desc`) non-verified verification of the user. -/
def findLatestVerificationByUserId (store : List EmailVerification) (userId : String) :
    Option EmailVerification :=
  findLatestBy (fun v => v.createdAt)
    (store.filter fun v => v.userId == userId && !v.isVerified)

theorem findLatestVerificationByUserId_spec {store : List EmailVerification}
    {userId : String} {v : EmailVerification}
    (h : findLatestVerificationByUserId store userId = some v) :
    v ∈ store ∧ v.userId = userId ∧ v.isVerified = false := by
  have hv := findLatestBy_mem _ _ _ h
  have := List.mem_filter.mp hv
  refine ⟨this.1, ?_, ?_⟩
  · have := this.2
    simp only [Bool.and_eq_true, beq_iff_eq, Bool.not_eq_true'] at this
    exact this.1
  · have := this.2
    simp only [Bool.and_eq_true, beq_iff_eq, Bool.not_eq_true'] at this
    exact this.2

/-- `EmailVerificationRepository.incrementAttempts`. -/
def incrementAttempts (store : List EmailVerification) (id : Nat) :
    List EmailVerification :=
  store.map fun v => if v.id == id then { v with attempts := v.attempts + 1 } else v

/-- `EmailVerificationRepository.markAsVerified`. -/
def markVerificationVerified (store : List EmailVerification) (id : Nat) (now : Nat) :
    List EmailVerification :=
  store.map fun v =>
    if v.id == id then { v with isVerified := true, verifiedAt := some now } else v

/-- `OtpService.isOtpExpired`: `new Date() > expiresAt`. -/
def isOtpExpired (now expiresAt : Nat) : Bool := now > expiresAt

/-- `OtpService.isMaxAttemptsExceeded`: `attempts >= MAX_ATTEMPTS` with
`MAX_ATTEMPTS = 3`. -/
def isMaxAttemptsExceeded (attempts : Nat) : Bool := attempts ≥ 3

/-- `OtpService.validateOtpAttempt`: already-verified, then expired, then
attempts-exceeded — three distinct `BadRequestException`s, in this order. -/
def validateOtpAttempt (now : Nat) (verification : EmailVerification) :
    Except ApiError Unit :=
  if verification.isVerified then
    .error (.badRequest "OTP already verified")
  else if isOtpExpired now verification.expiresAt then
    .error (.badRequest "OTP has expired. Please request a new one")
  else if isMaxAttemptsExceeded verification.attempts then
    .error (.badRequest "Maximum verification attempts exceeded. Please request a new OTP")
  else
    .ok ()

/-- `EmailVerificationService.verifyOtp`: find the latest unverified
verification, run `validateOtpAttempt`, compare the OTP against the stored
hash; on mismatch increment attempts and fail Unauthorized; on match mark the
verification verified, mark the user's email verified, and advance the user to
`MOBILE_VERIFICATION` / `PENDING_MOBILE`. -/
def verifyOtp (compareOtp : String → String → Bool) (now : Nat) (w : EmailWorld)
    (userId otp : String) : Except ApiError Unit × EmailWorld :=
  match findLatestVerificationByUserId w.verifications userId with
  | none =>
    (.error (.badRequest "No verification request found. Please request a new OTP"), w)
  | some verification =>
    match validateOtpAttempt now verification with
    | .error e => (.error e, w)
    | .ok _ =>
      if !compareOtp otp verification.otp then
        (.error (.unauthorized "Invalid OTP. Please try again"),
         { w with verifications := incrementAttempts w.verifications verification.id })
      else
        (.ok (),
         { verifications := markVerificationVerified w.verifications verification.id now,
           users :=
             updateUserById (markEmailVerified w.users userId now) userId fun u =>
               { u with onboardingStep := .MOBILE_VERIFICATION,
                        accountStatus := .PENDING_MOBILE } })

/-! ### Claim C2 -/

/-- **C2.** For a user with an active EmailVerification, `verifyOtp` checks
already-verified, expired, and attempts ≥ 3 as distinct failures before any
hash comparison — in particular, with 3 or more recorded attempts the call
fails attempts-exceeded no matter what `compareOtp` would return.  On hash
mismatch it increments the attempts counter and fails Unauthorized; on match
it marks the verification verified, sets the user's email-verified flag, and
sets the onboarding step to `MOBILE_VERIFICATION` with account status
`PENDING_MOBILE`.  (The already-verified failure is stated on
`validateOtpAttempt`, where the source implements it: the row lookup only
returns unverified rows, so that branch cannot fire through `verifyOtp`.) -/
theorem verifyOtp_attempt_gating (compareOtp : String → String → Bool) (now : Nat)
    (w : EmailWorld) (userId otp : String) (v : EmailVerification)
    (hfind : findLatestVerificationByUserId w.verifications userId = some v) :
    (∀ v' : EmailVerification, v'.isVerified = true →
      validateOtpAttempt now v' = .error (.badRequest "OTP already verified")) ∧
    (now > v.expiresAt →
      verifyOtp compareOtp now w userId otp =
        (.error (.badRequest "OTP has expired. Please request a new one"), w)) ∧
    (¬ now > v.expiresAt → v.attempts ≥ 3 →
      verifyOtp compareOtp now w userId otp =
        (.error
          (.badRequest "Maximum verification attempts exceeded. Please request a new OTP"),
         w)) ∧
    (¬ now > v.expiresAt → v.attempts < 3 → compareOtp otp v.otp = false →
      verifyOtp compareOtp now w userId otp =
        (.error (.unauthorized "Invalid OTP. Please try again"),
         { w with verifications := incrementAttempts w.verifications v.id })) ∧
    (¬ now > v.expiresAt → v.attempts < 3 → compareOtp otp v.otp = true →
      verifyOtp compareOtp now w userId otp =
        (.ok (),
         { verifications := markVerificationVerified w.verifications v.id now,
           users :=
             updateUserById (markEmailVerified w.users userId now) userId fun u =>
               { u with onboardingStep := .MOBILE_VERIFICATION,
                        accountStatus := .PENDING_MOBILE } }) ∧
      (∀ u ∈ (verifyOtp compareOtp now w userId otp).2.users, u.id = userId →
        u.emailVerified = true ∧ u.onboardingStep = .MOBILE_VERIFICATION ∧
          u.accountStatus = .PENDING_MOBILE)) := by
  have hnv : v.isVerified = false := (findLatestVerificationByUserId_spec hfind).2.2
  refine ⟨?_, ?_, ?_, ?_, ?_⟩
  · intro v' hv'
    simp [validateOtpAttempt, hv']
  · intro hexp
    simp [verifyOtp, hfind, validateOtpAttempt, hnv, isOtpExpired, hexp]
  · intro hexp hatt
    simp [verifyOtp, hfind, validateOtpAttempt, hnv, isOtpExpired, hexp,
      isMaxAttemptsExceeded, hatt]
  · intro hexp hatt hcmp
    have hatt' : ¬ v.attempts ≥ 3 := by omega
    simp [verifyOtp, hfind, validateOtpAttempt, hnv, isOtpExpired, hexp,
      isMaxAttemptsExceeded, hatt', hcmp]
  · intro hexp hatt hcmp
    have hatt' : ¬ v.attempts ≥ 3 := by omega
    have heq : verifyOtp compareOtp now w userId otp =
        (.ok (),
         { verifications := markVerificationVerified w.verifications v.id now,
           users :=
             updateUserById (markEmailVerified w.users userId now) userId fun u =>
               { u with onboardingStep := .MOBILE_VERIFICATION,
                        accountStatus := .PENDING_MOBILE } }) := by
      simp [verifyOtp, hfind, validateOtpAttempt, hnv, isOtpExpired, hexp,
        isMaxAttemptsExceeded, hatt', hcmp]
    refine ⟨heq, ?_⟩
    intro u hu huid
    rw [heq] at hu
    simp only [updateUserById, markEmailVerified] at hu
    rcases List.mem_map.mp hu with ⟨u₁, hu₁, rfl⟩
    rcases List.mem_map.mp hu₁ with ⟨u₀, _, rfl⟩
    by_cases h₀ : u₀.id = userId
    · have hb : (u₀.id == userId) = true := by simpa using h₀
      simp [hb]
    · have hb : (u₀.id == userId) = false := by simpa using h₀
      simp only [hb, Bool.false_eq_true, if_false, if_neg] at huid ⊢
      exact absurd huid h₀

/-- Concrete email-verification row for the C2 witness. -/
def demoVerification : EmailVerification :=
  { id := 1, userId := "u1", email := "a@x.com", otp := "hashed-otp", attempts := 0,
    expiresAt := 100, isVerified := false, verifiedAt := none, createdAt := 0 }

/-- Concrete user row for the C2 witness. -/
def demoEmailUser : UserRec :=
  { id := "u1", email := "a@x.com", passwordHash := some "ph",
    emailVerified := false, emailVerifiedAt := none, phone := none,
    phoneCountry := none, phoneVerified := false, phoneVerifiedAt := none,
    onboardingStep := .EMAIL_VERIFICATION, accountStatus := .PENDING_EMAIL,
    onboardingComplete := false }

/-- Bcrypt comparison stand-in for closed witness statements: accepts exactly
the pair `("123456", "hashed-otp")`. -/
def demoCompareOtp : String → String → Bool :=
  fun plain hashed => plain == "123456" && hashed == "hashed-otp"

/-- Concrete email-verification world for the C2 witness. -/
def demoEmailWorld : EmailWorld :=
  { verifications := [demoVerification], users := [demoEmailUser] }

theorem verifyOtp_attempt_gating_witness :
    verifyOtp demoCompareOtp 50 demoEmailWorld "u1" "123456" =
      (.ok (),
       { verifications :=
           markVerificationVerified demoEmailWorld.verifications demoVerification.id 50,
         users :=
           updateUserById (markEmailVerified demoEmailWorld.users "u1" 50) "u1" fun u =>
             { u with
               onboardingStep := .MOBILE_VERIFICATION,
               accountStatus := .PENDING_MOBILE } }) := by
  have h := verifyOtp_attempt_gating demoCompareOtp 50 demoEmailWorld "u1" "123456"
    demoVerification rfl
  exact (h.2.2.2.2 (by decide) (by decide) (by decide)).1

/-! ## Onboarding orchestrator (`OnboardingService`)

`services/onboarding.service.ts`.  `register` resolves the existing user and
gates the resume path; the create path (hash password, create user, send OTP,
mint onboarding token) and the tail of the resume path (token minting,
`resendOtpIfNeeded`, status DTO) do not touch the decision the claims are
about and are collapsed into the `RegisterOutcome`.  bcrypt
`EncryptionService.comparePassword` is the parameter `comparePassword`. -/

/-- Which path `register` took. -/
inductive RegisterOutcome where
  | resumed | created
deriving Repr, DecidableEq

/-- `OnboardingService.resumeOnboarding`, password gate: the check is run only
when `!shouldSkipPasswordCheck && user.passwordHash` (JS truthiness on the
nullable hash column); `shouldSkipPasswordCheck` is
`!user.emailVerified && !user.phoneVerified`. -/
def resumeOnboarding (comparePassword : String → String → Bool) (user : UserRec)
    (password : String) : Except ApiError RegisterOutcome :=
  let shouldSkipPasswordCheck := !user.emailVerified && !user.phoneVerified
  if !shouldSkipPasswordCheck && optStrTruthy user.passwordHash then
    if !comparePassword password (user.passwordHash.getD "") then
      .error (.unauthorized "Invalid password")
    else
      .ok .resumed
  else
    .ok .resumed

/-- `OnboardingService.register`: complete user → `BadRequestException`
("User Already Exists. Please login."); incomplete user → resume path; no
user → create path. -/
def register (comparePassword : String → String → Bool) (users : List UserRec)
    (email password : String) : Except ApiError RegisterOutcome :=
  match findUserByEmail users email with
  | some existingUser =>
    if existingUser.onboardingComplete then
      .error (.badRequest "User Already Exists. Please login.")
    else
      resumeOnboarding comparePassword existingUser password
  | none => .ok .created

/-! ### Claim C3 -/

/-- Completed user for the C3 counterexample. -/
def demoCompleteUser : UserRec :=
  { id := "u1", email := "done@x.com", passwordHash := some "ph",
    emailVerified := true, emailVerifiedAt := some 1, phone := some "+15551234567",
    phoneCountry := some "US", phoneVerified := true, phoneVerifiedAt := some 2,
    onboardingStep := .COMPLETE, accountStatus := .ACTIVE,
    onboardingComplete := true }

/-- Incomplete OAuth user (verified email, no password hash) for the C3
counterexample. -/
def demoOauthResumeUser : UserRec :=
  { id := "u2", email := "oauth@x.com", passwordHash := none,
    emailVerified := true, emailVerifiedAt := some 1, phone := none,
    phoneCountry := none, phoneVerified := false, phoneVerifiedAt := none,
    onboardingStep := .SET_PASSWORD, accountStatus := .PENDING_MOBILE,
    onboardingComplete := false }

/-- Password comparison that rejects every pair — the supplied password never
matches any stored hash. -/
def demoCompareNever : String → String → Bool := fun _ _ => false

/-- **C3, counterexample.**  (1) For an existing completed user, `register`
fails with `BadRequestException`, not Conflict.  (2) For an existing
incomplete user with `emailVerified = true` (so not "both unverified") and no
stored password hash, `register` succeeds even though the supplied password
matches no stored hash — the check is also skipped when no hash exists, so it
is not skipped *exactly* when both flags are false. -/
theorem register_claim_counterexample :
    isConflictError
        (register demoCompareNever [demoCompleteUser, demoOauthResumeUser]
          "done@x.com" "pw") = false ∧
    register demoCompareNever [demoCompleteUser, demoOauthResumeUser]
        "done@x.com" "pw" =
      .error (.badRequest "User Already Exists. Please login.") ∧
    demoOauthResumeUser.emailVerified = true ∧
    register demoCompareNever [demoCompleteUser, demoOauthResumeUser]
        "oauth@x.com" "wrongpw" = .ok .resumed := by
  decide

/-- **C3, amended.** `register(email, password, ...)` fails with BadRequest
("User Already Exists. Please login.") whenever a user with that email exists
and `onboardingComplete` is true; when the user exists and is incomplete, the
password check is skipped when both `emailVerified` and `phoneVerified` are
false, and also when no (non-empty) password hash is stored; in the remaining
cases the supplied password must match the stored hash or the call fails
Unauthorized. -/
theorem register_resume_gate (comparePassword : String → String → Bool)
    (users : List UserRec) (email password : String) (u : UserRec)
    (hfind : findUserByEmail users email = some u) :
    (u.onboardingComplete = true →
      register comparePassword users email password =
        .error (.badRequest "User Already Exists. Please login.")) ∧
    (u.onboardingComplete = false →
      ((u.emailVerified = false ∧ u.phoneVerified = false) ∨
          optStrTruthy u.passwordHash = false →
        register comparePassword users email password = .ok .resumed) ∧
      (∀ h, u.passwordHash = some h → h ≠ "" →
        (u.emailVerified = true ∨ u.phoneVerified = true) →
        register comparePassword users email password =
          (if comparePassword password h then .ok .resumed
           else .error (.unauthorized "Invalid password")))) := by
  constructor
  · intro hc
    simp [register, hfind, hc]
  · intro hc
    constructor
    · rintro (⟨he, hp⟩ | hhash)
      · simp [register, hfind, hc, resumeOnboarding, he, hp]
      · simp [register, hfind, hc, resumeOnboarding, hhash]
    · intro h hhash hne hver
      have htruthy : optStrTruthy u.passwordHash = true := by
        simp [optStrTruthy, hhash, hne]
      have hskip : (!u.emailVerified && !u.phoneVerified) = false := by
        rcases hver with hv | hv <;> simp [hv]
      by_cases hcmp : comparePassword password h
      · simp [register, hfind, hc, resumeOnboarding, hskip, htruthy, hhash, hcmp,
          optStrTruthy, hne]
      · simp [register, hfind, hc, resumeOnboarding, hskip, htruthy, hhash, hcmp,
          optStrTruthy, hne]

theorem register_resume_gate_witness :
    register demoCompareNever [demoCompleteUser, demoOauthResumeUser]
        "done@x.com" "pw" =
      .error (.badRequest "User Already Exists. Please login.") ∧
    register demoCompareNever [demoCompleteUser, demoOauthResumeUser]
        "oauth@x.com" "pw" = .ok .resumed := by
  have h₁ := register_resume_gate demoCompareNever
    [demoCompleteUser, demoOauthResumeUser] "done@x.com" "pw" demoCompleteUser rfl
  have h₂ := register_resume_gate demoCompareNever
    [demoCompleteUser, demoOauthResumeUser] "oauth@x.com" "pw" demoOauthResumeUser rfl
  exact ⟨h₁.1 rfl, (h₂.2 rfl).1 (.inr rfl)⟩

/-! ### Claim C4 -/

/-- `OnboardingService.setPassword`: `UserService.findById` throws NotFound for
a missing user (the service's own BadRequest("User not found") guard is dead
code behind it); then the SET_PASSWORD-step guard, then the
already-has-password guard over the full user record fetched by email.  On the
permitted path the password hash is computed, but both persistence calls
(`updatePassword` and `updateOnboardingStep` to MOBILE_VERIFICATION) are
commented out in the source, so the users table is returned unchanged. -/
def setPassword (hashPassword : String → String) (users : List UserRec)
    (userId password : String) : Except ApiError Unit × List UserRec :=
  match findUserById users userId with
  | none => (.error (.notFound "User with ID not found"), users)
  | some user =>
    if user.onboardingStep ≠ .SET_PASSWORD then
      (.error (.badRequest "User is not on SET_PASSWORD onboarding step"), users)
    else
      match findUserByEmail users user.email with
      | some fullUser =>
        if optStrTruthy fullUser.passwordHash then
          (.error (.badRequest "User already has a password"), users)
        else
          let _passwordHash := hashPassword password
          (.ok (), users)
      | none =>
        let _passwordHash := hashPassword password
        (.ok (), users)

/-- Incomplete OAuth user on the SET_PASSWORD step with no stored hash —
`setPassword`'s permitted case. -/
def demoSetPasswordUser : UserRec :=
  { id := "u7", email := "o@x.com", passwordHash := none,
    emailVerified := true, emailVerifiedAt := some 1, phone := none,
    phoneCountry := none, phoneVerified := false, phoneVerifiedAt := none,
    onboardingStep := .SET_PASSWORD, accountStatus := .PENDING_MOBILE,
    onboardingComplete := false }

/-- User already past SET_PASSWORD for the guard conjunct. -/
def demoWrongStepUser : UserRec :=
  { demoSetPasswordUser with
    id := "u8",
    email := "w@x.com",
    onboardingStep := .MOBILE_VERIFICATION }

/-- **C4.** The guard half of the claim holds: a user not on the SET_PASSWORD
step is rejected with BadRequest, and a permitted call returns success.  But
the side-effect half fails on the code: on the permitted path the users table
is returned unchanged — no password hash is persisted and the onboarding step
stays SET_PASSWORD (both writes are commented out in the source), where the
claim (and the spec's corrected contract) require persisting the hash and
advancing the step to MOBILE_VERIFICATION. -/
theorem setPassword_stubbed_persistence :
    setPassword (fun p => p ++ "-hash") [demoWrongStepUser] "u8" "S3cret" =
      (.error (.badRequest "User is not on SET_PASSWORD onboarding step"),
       [demoWrongStepUser]) ∧
    setPassword (fun p => p ++ "-hash") [demoSetPasswordUser] "u7" "S3cret" =
      (.ok (), [demoSetPasswordUser]) ∧
    demoSetPasswordUser.passwordHash = none ∧
    demoSetPasswordUser.onboardingStep = .SET_PASSWORD := by
  decide

/-! ## Session service (`SessionService.refreshAccessToken`)

`auth/services/session.service.ts` over the `sessions` table
(`auth/repositories/session.repository.ts`).  JWT operations
(`JwtAuthService.verifyRefreshToken`, `generateAccessToken`,
`getAccessTokenExpiryTime`) are abstracted as parameters: `verifyRefreshToken`
may fail (bad signature / claims / JWT expiry), `generateAccessToken` mints a
token for a user id, `newAccessTokenExpiresAt` is the freshly computed access
expiry. -/

/-- Row of the `sessions` table. -/
structure Session where
  id : Nat
  userId : String
  accessToken : String
  refreshToken : String
  accessTokenExpiresAt : Nat
  refreshTokenExpiresAt : Nat
  isActive : Bool
deriving Repr, DecidableEq

/-- Verified claims of a refresh token. -/
structure RefreshPayload where
  userId : String
deriving Repr, DecidableEq

/-- `SessionService.refreshAccessToken`: verify the refresh token first, then
find the session by refresh-token value; Unauthorized when missing or
inactive; on stored-expiry overrun flip `isActive := false` and fail
Unauthorized; otherwise store a fresh access token and expiry on the session
and return it together with the same (unrotated) refresh token. -/
def refreshAccessToken (verifyRefreshToken : String → Except ApiError RefreshPayload)
    (generateAccessToken : String → String) (newAccessTokenExpiresAt : Nat)
    (now : Nat) (sessions : List Session) (refreshToken : String) :
    Except ApiError (String × String) × List Session :=
  match verifyRefreshToken refreshToken with
  | .error e => (.error e, sessions)
  | .ok payload =>
    match sessions.find? (fun s => s.refreshToken == refreshToken) with
    | none => (.error (.unauthorized "Invalid or expired refresh token"), sessions)
    | some session =>
      if !session.isActive then
        (.error (.unauthorized "Invalid or expired refresh token"), sessions)
      else if now > session.refreshTokenExpiresAt then
        (.error (.unauthorized "Refresh token expired. Please login again"),
         sessions.map fun s =>
           if s.id == session.id then { s with isActive := false } else s)
      else
        let newAccessToken := generateAccessToken payload.userId
        (.ok (newAccessToken, session.refreshToken),
         sessions.map fun s =>
           if s.id == session.id then
             { s with
               accessToken := newAccessToken,
               accessTokenExpiresAt := newAccessTokenExpiresAt }
           else s)

/-! ### Claim C5 -/

/-- **C5.** `refreshAccessToken` verifies the refresh token's signature/claims
before the session lookup (on a verification error the result is the same for
every session table, which is returned untouched); it fails Unauthorized when
no session holds that refresh token or the session is inactive; when the
stored refresh expiry is in the past it sets `isActive := false` on the
session and fails Unauthorized; on success it mints only a new access token,
stores it with its new expiry on the session, and returns the unchanged
refresh token (no rotation). -/
theorem refreshAccessToken_no_rotation
    (verifyRefreshToken : String → Except ApiError RefreshPayload)
    (generateAccessToken : String → String) (newAccessTokenExpiresAt : Nat)
    (now : Nat) (sessions : List Session) (refreshToken : String) :
    (∀ e, verifyRefreshToken refreshToken = .error e →
      refreshAccessToken verifyRefreshToken generateAccessToken
          newAccessTokenExpiresAt now sessions refreshToken = (.error e, sessions)) ∧
    (∀ payload, verifyRefreshToken refreshToken = .ok payload →
      (sessions.find? (fun s => s.refreshToken == refreshToken) = none →
        refreshAccessToken verifyRefreshToken generateAccessToken
            newAccessTokenExpiresAt now sessions refreshToken =
          (.error (.unauthorized "Invalid or expired refresh token"), sessions)) ∧
      (∀ session, sessions.find? (fun s => s.refreshToken == refreshToken) = some session →
        session.refreshToken = refreshToken ∧
        (session.isActive = false →
          refreshAccessToken verifyRefreshToken generateAccessToken
              newAccessTokenExpiresAt now sessions refreshToken =
            (.error (.unauthorized "Invalid or expired refresh token"), sessions)) ∧
        (session.isActive = true → now > session.refreshTokenExpiresAt →
          refreshAccessToken verifyRefreshToken generateAccessToken
              newAccessTokenExpiresAt now sessions refreshToken =
            (.error (.unauthorized "Refresh token expired. Please login again"),
             sessions.map fun s =>
               if s.id == session.id then { s with isActive := false } else s)) ∧
        (session.isActive = true → ¬ now > session.refreshTokenExpiresAt →
          refreshAccessToken verifyRefreshToken generateAccessToken
              newAccessTokenExpiresAt now sessions refreshToken =
            (.ok (generateAccessToken payload.userId, refreshToken),
             sessions.map fun s =>
               if s.id == session.id then
                 { s with
                   accessToken := generateAccessToken payload.userId,
                   accessTokenExpiresAt := newAccessTokenExpiresAt }
               else s) ∧
          ∀ s ∈ (refreshAccessToken verifyRefreshToken generateAccessToken
              newAccessTokenExpiresAt now sessions refreshToken).2,
            ∃ s₀ ∈ sessions,
              s.refreshToken = s₀.refreshToken ∧
              s.refreshTokenExpiresAt = s₀.refreshTokenExpiresAt ∧
              s.isActive = s₀.isActive ∧ s.userId = s₀.userId))) := by
  constructor
  · intro e he
    simp [refreshAccessToken, he]
  · intro payload hp
    constructor
    · intro hnone
      simp [refreshAccessToken, hp, hnone]
    · intro session hfind
      have htok : session.refreshToken = refreshToken := by
        have := List.find?_some hfind
        simpa using this
      refine ⟨htok, ?_, ?_, ?_⟩
      · intro hinactive
        simp [refreshAccessToken, hp, hfind, hinactive]
      · intro hactive hexp
        simp [refreshAccessToken, hp, hfind, hactive, hexp]
      · intro hactive hexp
        have heq : refreshAccessToken verifyRefreshToken generateAccessToken
            newAccessTokenExpiresAt now sessions refreshToken =
            (.ok (generateAccessToken payload.userId, refreshToken),
             sessions.map fun s =>
               if s.id == session.id then
                 { s with
                   accessToken := generateAccessToken payload.userId,
                   accessTokenExpiresAt := newAccessTokenExpiresAt }
               else s) := by
          simp [refreshAccessToken, hp, hfind, hactive, hexp, htok]
        refine ⟨heq, ?_⟩
        intro s hs
        rw [heq] at hs
        rcases List.mem_map.mp hs with ⟨s₀, hs₀, rfl⟩
        by_cases hid : (s₀.id == session.id) = true
        · exact ⟨s₀, hs₀, by simp [hid]⟩
        · have hid' : (s₀.id == session.id) = false := by
            simpa using hid
          exact ⟨s₀, hs₀, by simp [hid']⟩

/-- Concrete session for the C5 witness. -/
def demoSession : Session :=
  { id := 3, userId := "u1", accessToken := "oldAccess", refreshToken := "refr",
    accessTokenExpiresAt := 40, refreshTokenExpiresAt := 1000, isActive := true }

/-- JWT verifier stand-in for the C5 witness: accepts exactly the token
`"refr"` as belonging to user `"u1"`. -/
def demoVerifyRefresh : String → Except ApiError RefreshPayload :=
  fun t =>
    if t == "refr" then .ok { userId := "u1" }
    else .error (.unauthorized "Invalid refresh token")

theorem refreshAccessToken_no_rotation_witness :
    refreshAccessToken demoVerifyRefresh (fun uid => uid ++ "-access") 90 50
        [demoSession] "refr" =
      (.ok ("u1-access", "refr"),
       [demoSession].map fun s =>
         if s.id == demoSession.id then
           { s with accessToken := "u1-access", accessTokenExpiresAt := 90 }
         else s) := by
  have h := (refreshAccessToken_no_rotation demoVerifyRefresh
    (fun uid => uid ++ "-access") 90 50 [demoSession] "refr").2
    { userId := "u1" } rfl
  exact ((h.2 demoSession rfl).2.2.2 rfl (by decide)).1

/-! ## Mobile (WhatsApp) verification (`MobileVerificationService`)

`services/mobile-verification.service.ts` over the `mobile_verifications`
table (`MobileVerificationRepository`) and the users table.  Phone helpers are
from `services/whatsapp.service.ts`.  The random token of
`generateVerificationToken` is parametrised by the three random bytes. -/

/-- `MobileVerificationMethod` enum
(`dto/initiate-mobile-verification.dto.ts`). -/
inductive MobileVerificationMethod where
  | WHATSAPP_QR | SMS_QR | MANUAL_OTP
deriving Repr, DecidableEq

/-- Row of the `mobile_verifications` table (`qrVerificationId` carries a
unique index). -/
structure MobileVerification where
  id : Nat
  userId : String
  phone : String
  phoneCountry : String
  method : MobileVerificationMethod
  qrVerificationId : String
  isVerified : Bool
  verifiedAt : Option Nat
  qrScannedAt : Option Nat
  attempts : Nat
  expiresAt : Nat
  createdAt : Nat
deriving Repr, DecidableEq

/-- Combined state the mobile verification service operates on. -/
structure MobileWorld where
  verifications : List MobileVerification
  users : List UserRec
deriving Repr, DecidableEq

/-- `WhatsAppService.normalizePhoneNumber`: prefix `+` when missing. -/
def normalizePhoneNumber (phone : String) : String :=
  if phone.startsWith "+" then phone else "+" ++ phone

/-- Static dialing-prefix table of `WhatsAppService.extractCountryCode`. -/
def countryCodeMap (p : String) : Option String :=
  if p = "1" then some "US"
  else if p = "91" then some "IN"
  else if p = "44" then some "GB"
  else if p = "33" then some "FR"
  else if p = "49" then some "DE"
  else if p = "39" then some "IT"
  else if p = "34" then some "ES"
  else if p = "7" then some "RU"
  else if p = "86" then some "CN"
  else if p = "81" then some "JP"
  else if p = "82" then some "KR"
  else if p = "55" then some "BR"
  else if p = "61" then some "AU"
  else if p = "27" then some "ZA"
  else none

/-- `WhatsAppService.extractCountryCode`: strip a leading `+`, then try the
prefix of length 3, 2, 1 against the table (JS `substring(0, i)` clamps to the
string length), defaulting to `"UN"`. -/
def extractCountryCode (phone : String) : String :=
  let normalized := if phone.startsWith "+" then phone.drop 1 else phone
  match countryCodeMap (normalized.take 3) with
  | some c => c
  | none =>
    match countryCodeMap (normalized.take 2) with
    | some c => c
    | none =>
      match countryCodeMap (normalized.take 1) with
      | some c => c
      | none => "UN"

/-- `MobileVerificationRepository.findByVerificationId` (`findUnique` on the
unique `qrVerificationId`). -/
def findByVerificationId (store : List MobileVerification) (token : String) :
    Option MobileVerification :=
  store.find? fun v => v.qrVerificationId == token

/-- `MobileVerificationRepository.findLatestByUserId`: most recent
(`createdAt desc`) non-verified verification of the user. -/
def findLatestMvByUserId (store : List MobileVerification) (userId : String) :
    Option MobileVerification :=
  findLatestBy (fun v => v.createdAt)
    (store.filter fun v => v.userId == userId && !v.isVerified)

/-- `MobileVerificationRepository.isPhoneVerifiedByOtherUser`: a verified row
with this phone and a different user exists. -/
def isPhoneVerifiedByOtherUser (store : List MobileVerification)
    (phone excludeUserId : String) : Bool :=
  (store.filter fun v =>
    v.phone == phone && v.isVerified && v.userId != excludeUserId).length > 0

/-- `MobileVerificationRepository.markAsVerified`: set verified, store the
phone and country, stamp `verifiedAt` and `qrScannedAt`. -/
def markMvVerified (store : List MobileVerification) (id : Nat)
    (phone phoneCountry : String) (now : Nat) : List MobileVerification :=
  store.map fun v =>
    if v.id == id then
      { v with
        isVerified := true,
        verifiedAt := some now,
        phone := phone,
        phoneCountry := phoneCountry,
        qrScannedAt := some now }
    else v

/-- `MobileVerificationService.verifyFromWebhook`: silent-failure lookup of
the token; `false` (never a throw — every branch returns) on not-found,
already-verified, expired, attempts at the limit, or phone verified by a
different user; otherwise normalize the phone, mark the verification and the
user verified, and return `true`.  (The user update assumes the foreign key
from `mobile_verifications.userId`, so it is a plain row update.) -/
def verifyFromWebhook (now : Nat) (w : MobileWorld)
    (verificationToken phoneNumber : String) : Bool × MobileWorld :=
  match findByVerificationId w.verifications verificationToken with
  | none => (false, w)
  | some verification =>
    if verification.isVerified then (false, w)
    else if verification.expiresAt < now then (false, w)
    else if verification.attempts ≥ 5 then (false, w)
    else if isPhoneVerifiedByOtherUser w.verifications phoneNumber verification.userId then
      (false, w)
    else
      let normalizedPhone := normalizePhoneNumber phoneNumber
      let phoneCountry := extractCountryCode normalizedPhone
      (true,
       { verifications :=
           markMvVerified w.verifications verification.id normalizedPhone phoneCountry now,
         users :=
           markPhoneVerified w.users verification.userId normalizedPhone phoneCountry now })

/-- Fresh `mobile_verifications` row created by
`MobileVerificationService.initiateVerification`: empty phone fields,
`attempts = 0`, 10-minute expiry. -/
def mkMobileVerification (newId : Nat) (userId : String)
    (method : MobileVerificationMethod) (token : String) (now : Nat) :
    MobileVerification :=
  { id := newId, userId := userId, phone := "", phoneCountry := "",
    method := method, qrVerificationId := token, isVerified := false,
    verifiedAt := none, qrScannedAt := none, attempts := 0,
    expiresAt := now + 10 * 60 * 1000, createdAt := now }

/-- `MobileVerificationService.initiateVerification`: NotFound for a missing
user, BadRequest when the phone is already verified, idempotent reuse of an
unexpired unverified row, otherwise create a fresh row (WhatsApp send is
commented out in the source). -/
def initiateVerification (now newId : Nat) (token : String) (w : MobileWorld)
    (userId : String) (method : MobileVerificationMethod) :
    Except ApiError MobileVerification × MobileWorld :=
  match findUserById w.users userId with
  | none => (.error (.notFound "User not found"), w)
  | some user =>
    if user.phoneVerified then
      (.error (.badRequest "Phone number already verified"), w)
    else
      match findLatestMvByUserId w.verifications userId with
      | some existingVerification =>
        if !existingVerification.isVerified &&
            decide (existingVerification.expiresAt > now) then
          (.ok existingVerification, w)
        else
          let verification := mkMobileVerification newId userId method token now
          (.ok verification,
           { w with verifications := w.verifications ++ [verification] })
      | none =>
        let verification := mkMobileVerification newId userId method token now
        (.ok verification,
         { w with verifications := w.verifications ++ [verification] })

/-- `MobileVerificationService.resendVerification`: delete the pending
unverified row, then re-run initiate with the WHATSAPP_QR method. -/
def resendVerification (now newId : Nat) (token : String) (w : MobileWorld)
    (userId : String) : Except ApiError MobileVerification × MobileWorld :=
  let w' :=
    match findLatestMvByUserId w.verifications userId with
    | some existing =>
      if !existing.isVerified then
        { w with verifications := w.verifications.filter fun v => v.id != existing.id }
      else w
    | none => w
  initiateVerification now newId token w' userId .WHATSAPP_QR

/-- `MobileVerificationService.getVerificationStatus`: read-only lookup — it
returns a status view and never writes. -/
def getVerificationStatus (w : MobileWorld) (userId : String) :
    Except ApiError MobileVerification :=
  match findUserById w.users userId with
  | none => .error (.notFound "User not found")
  | some _ =>
    match findLatestMvByUserId w.verifications userId with
    | none =>
      .error (.notFound "No mobile verification found. Please initiate verification first.")
    | some verification => .ok verification

/-! ### Claim C6 -/

/-- **C6.** `verifyFromWebhook(token, phoneNumber)` returns `false` — it never
throws; every branch of the embedded function returns — when no verification
with that token exists, when the verification is already verified, expired, or
has 5 or more attempts, or when the phone number is already verified by a
different user; in all other cases it normalizes the phone, marks the
verification and the user's phone fields verified, and returns `true`. -/
theorem verifyFromWebhook_silent_failures (now : Nat) (w : MobileWorld)
    (token phoneNumber : String) :
    (findByVerificationId w.verifications token = none →
      verifyFromWebhook now w token phoneNumber = (false, w)) ∧
    (∀ verification, findByVerificationId w.verifications token = some verification →
      (verification.isVerified = true →
        verifyFromWebhook now w token phoneNumber = (false, w)) ∧
      (verification.isVerified = false → verification.expiresAt < now →
        verifyFromWebhook now w token phoneNumber = (false, w)) ∧
      (verification.isVerified = false → ¬ verification.expiresAt < now →
        verification.attempts ≥ 5 →
        verifyFromWebhook now w token phoneNumber = (false, w)) ∧
      (verification.isVerified = false → ¬ verification.expiresAt < now →
        ¬ verification.attempts ≥ 5 →
        isPhoneVerifiedByOtherUser w.verifications phoneNumber
            verification.userId = true →
        verifyFromWebhook now w token phoneNumber = (false, w)) ∧
      (verification.isVerified = false → ¬ verification.expiresAt < now →
        ¬ verification.attempts ≥ 5 →
        isPhoneVerifiedByOtherUser w.verifications phoneNumber
            verification.userId = false →
        verifyFromWebhook now w token phoneNumber =
          (true,
           { verifications :=
               markMvVerified w.verifications verification.id
                 (normalizePhoneNumber phoneNumber)
                 (extractCountryCode (normalizePhoneNumber phoneNumber)) now,
             users :=
               markPhoneVerified w.users verification.userId
                 (normalizePhoneNumber phoneNumber)
                 (extractCountryCode (normalizePhoneNumber phoneNumber)) now }) ∧
        (∀ u ∈ (verifyFromWebhook now w token phoneNumber).2.users,
          u.id = verification.userId →
          u.phoneVerified = true ∧
            u.phone = some (normalizePhoneNumber phoneNumber)))) := by
  constructor
  · intro hnone
    simp [verifyFromWebhook, hnone]
  · intro verification hfind
    refine ⟨?_, ?_, ?_, ?_, ?_⟩
    · intro hv
      simp [verifyFromWebhook, hfind, hv]
    · intro hv hexp
      simp [verifyFromWebhook, hfind, hv, hexp]
    · intro hv hexp hatt
      simp [verifyFromWebhook, hfind, hv, hexp, hatt]
    · intro hv hexp hatt hphone
      simp [verifyFromWebhook, hfind, hv, hexp, hatt, hphone]
    · intro hv hexp hatt hphone
      have heq : verifyFromWebhook now w token phoneNumber =
          (true,
           { verifications :=
               markMvVerified w.verifications verification.id
                 (normalizePhoneNumber phoneNumber)
                 (extractCountryCode (normalizePhoneNumber phoneNumber)) now,
             users :=
               markPhoneVerified w.users verification.userId
                 (normalizePhoneNumber phoneNumber)
                 (extractCountryCode (normalizePhoneNumber phoneNumber)) now }) := by
        simp [verifyFromWebhook, hfind, hv, hexp, hatt, hphone]
      refine ⟨heq, ?_⟩
      intro u hu huid
      rw [heq] at hu
      simp only [markPhoneVerified, updateUserById] at hu
      rcases List.mem_map.mp hu with ⟨u₀, _, rfl⟩
      by_cases h₀ : u₀.id = verification.userId
      · have hb : (u₀.id == verification.userId) = true := by simpa using h₀
        simp [hb]
      · have hb : (u₀.id == verification.userId) = false := by simpa using h₀
        simp only [hb, Bool.false_eq_true, if_false, if_neg] at huid ⊢
        exact absurd huid h₀

/-- Pending mobile verification row for the C6 and C9 witnesses. -/
def demoMvRow : MobileVerification :=
  { id := 1, userId := "u1", phone := "", phoneCountry := "",
    method := .WHATSAPP_QR, qrVerificationId := "VERABC123",
    isVerified := false, verifiedAt := none, qrScannedAt := none,
    attempts := 0, expiresAt := 100, createdAt := 0 }

/-- User awaiting phone verification for the C6 and C9 witnesses. -/
def demoMvUser : UserRec :=
  { id := "u1", email := "a@x.com", passwordHash := some "ph",
    emailVerified := true, emailVerifiedAt := some 1, phone := none,
    phoneCountry := none, phoneVerified := false, phoneVerifiedAt := none,
    onboardingStep := .MOBILE_VERIFICATION, accountStatus := .PENDING_MOBILE,
    onboardingComplete := false }

/-- Concrete mobile world for the C6 and C9 witnesses. -/
def demoMvWorld : MobileWorld :=
  { verifications := [demoMvRow], users := [demoMvUser] }

theorem verifyFromWebhook_silent_failures_witness :
    verifyFromWebhook 50 demoMvWorld "VERABC123" "15551234567" =
      (true,
       { verifications :=
           markMvVerified demoMvWorld.verifications demoMvRow.id
             (normalizePhoneNumber "15551234567")
             (extractCountryCode (normalizePhoneNumber "15551234567")) 50,
         users :=
           markPhoneVerified demoMvWorld.users demoMvRow.userId
             (normalizePhoneNumber "15551234567")
             (extractCountryCode (normalizePhoneNumber "15551234567")) 50 }) := by
  have h := (verifyFromWebhook_silent_failures 50 demoMvWorld "VERABC123"
    "15551234567").2 demoMvRow rfl
  exact (h.2.2.2.2 (by decide) (by decide) (by decide) (by decide)).1

/-! ### Claim C9 -/

/-- All rows of the mobile-verification table carry a zero attempts
counter. -/
abbrev attemptsZero (w : MobileWorld) : Prop :=
  ∀ v ∈ w.verifications, v.attempts = 0

theorem initiateVerification_attemptsZero (now newId : Nat) (token : String)
    (w : MobileWorld) (userId : String) (method : MobileVerificationMethod)
    (h : attemptsZero w) :
    attemptsZero (initiateVerification now newId token w userId method).2 := by
  unfold initiateVerification
  split
  · exact h
  · split
    · exact h
    · split
      · split
        · exact h
        · intro v hv
          rcases List.mem_append.mp hv with h₁ | h₁
          · exact h v h₁
          · rw [List.mem_singleton.mp h₁]; rfl
      · intro v hv
        rcases List.mem_append.mp hv with h₁ | h₁
        · exact h v h₁
        · rw [List.mem_singleton.mp h₁]; rfl

theorem verifyFromWebhook_attemptsZero (now : Nat) (w : MobileWorld)
    (token phoneNumber : String) (h : attemptsZero w) :
    attemptsZero (verifyFromWebhook now w token phoneNumber).2 := by
  unfold verifyFromWebhook
  split
  · exact h
  · split
    · exact h
    · split
      · exact h
      · split
        · exact h
        · split
          · exact h
          · intro v hv
            simp only [markMvVerified] at hv
            rcases List.mem_map.mp hv with ⟨v₀, hv₀, rfl⟩
            split <;> exact h v₀ hv₀

theorem resendVerification_attemptsZero (now newId : Nat) (token : String)
    (w : MobileWorld) (userId : String) (h : attemptsZero w) :
    attemptsZero (resendVerification now newId token w userId).2 := by
  unfold resendVerification
  apply initiateVerification_attemptsZero
  split
  · split
    · intro v hv
      exact h v (List.mem_filter.mp hv).1
    · exact h
  · exact h

/-- **C9.** Invariant of the mobile verification service: the `attempts`
counter is 0 at row creation and no service operation increments it —
`initiateVerification`, `verifyFromWebhook` and `resendVerification` preserve
the all-zero invariant (`getVerificationStatus` is read-only by its type: it
returns no table), so on any table reachable by these operations the
attempts-exceeded (≥ 5) branch of `verifyFromWebhook` can never fire: every
row its lookup can return has a zero counter. -/
theorem mobileVerification_attempts_invariant (now newId : Nat) (token : String)
    (w : MobileWorld) (userId : String) (method : MobileVerificationMethod)
    (webToken phoneNumber : String) :
    (mkMobileVerification newId userId method token now).attempts = 0 ∧
    (attemptsZero w →
      attemptsZero (initiateVerification now newId token w userId method).2) ∧
    (attemptsZero w →
      attemptsZero (verifyFromWebhook now w webToken phoneNumber).2) ∧
    (attemptsZero w →
      attemptsZero (resendVerification now newId token w userId).2) ∧
    (attemptsZero w →
      ∀ v, findByVerificationId w.verifications webToken = some v →
        ¬ v.attempts ≥ 5) := by
  refine ⟨rfl, ?_, ?_, ?_, ?_⟩
  · exact initiateVerification_attemptsZero now newId token w userId method
  · exact verifyFromWebhook_attemptsZero now w webToken phoneNumber
  · exact resendVerification_attemptsZero now newId token w userId
  · intro h v hfind
    have hv : v ∈ w.verifications := List.mem_of_find?_eq_some hfind
    have := h v hv
    omega

theorem mobileVerification_attempts_invariant_witness :
    (mkMobileVerification 2 "u1" .WHATSAPP_QR "VERFFF000" 50).attempts = 0 ∧
    ¬ demoMvRow.attempts ≥ 5 := by
  have h := mobileVerification_attempts_invariant 50 2 "VERFFF000" demoMvWorld
    "u1" .WHATSAPP_QR "VERABC123" "15551234567"
  exact ⟨h.1, h.2.2.2.2 (by decide) demoMvRow (by decide)⟩

/-! ## Verification-token generation and extraction (claim C8)

`MobileVerificationService.generateVerificationToken` and
`WhatsAppWebhookController.extractVerificationToken`.  The JS regex
`/VER-?([A-Z0-9]{6})/i` is embedded as a left-to-right scan: at each start
position match `V`,`E`,`R` case-insensitively, then the greedy optional
hyphen, then exactly six alphanumeric characters.  (When the character after
`VER` is `'-'` but six alphanumerics do not follow, the regex backtracks to
the empty alternative of `-?`, which then has to match `'-'` against
`[A-Z0-9]` and fails too — so trying only the hyphen branch is exact.) -/

/-- `MobileVerificationService.generateVerificationToken`:
`"VER" + randomBytes(3).toString('hex').toUpperCase()`, parametrised by the
three random bytes. -/
def generateVerificationToken (b₁ b₂ b₃ : Fin 256) : String :=
  "VER" ++ String.mk ((hexEncodeChars [b₁, b₂, b₃]).map Char.toUpper)

/-- The character class `[A-Z0-9]` under the regex `i` flag: ASCII letters of
either case and digits. -/
def isTokenChar (c : Char) : Bool :=
  (decide ('A' ≤ c) && decide (c ≤ 'Z')) ||
  (decide ('0' ≤ c) && decide (c ≤ '9')) ||
  (decide ('a' ≤ c) && decide (c ≤ 'z'))

/-- Case-insensitive ASCII character comparison of the `i` flag. -/
def ciEq (a b : Char) : Bool := a.toLower == b.toLower

/-- `[A-Z0-9]{6}` at the current position: exactly six class characters,
otherwise no match. -/
def grab6 (l : List Char) : Option (List Char) :=
  if l.length ≥ 6 && (l.take 6).all isTokenChar then some (l.take 6) else none

/-- `-?[A-Z0-9]{6}`: greedy optional hyphen, then six class characters (see
the section comment for why no backtracking case remains). -/
def afterVer (l : List Char) : Option (List Char) :=
  if l.head? == some '-' then grab6 l.tail else grab6 l

/-- The whole pattern `VER-?([A-Z0-9]{6})` anchored at the current position;
returns the captured six characters. -/
def matchAt (l : List Char) : Option (List Char) :=
  match l with
  | v :: e :: r :: rest =>
    if ciEq v 'V' && ciEq e 'E' && ciEq r 'R' then afterVer rest else none
  | _ => none

/-- Leftmost match of the pattern: the scan JavaScript `String.match`
performs. -/
def extractScan : List Char → Option (List Char)
  | [] => none
  | c :: rest =>
    match matchAt (c :: rest) with
    | some capture => some capture
    | none => extractScan rest

/-- `WhatsAppWebhookController.extractVerificationToken`: leftmost regex match,
normalized to `VER` plus the uppercased capture (hyphen stripped). -/
def extractVerificationToken (messageText : String) : Option String :=
  match extractScan messageText.data with
  | some capture => some ("VER" ++ String.mk (capture.map Char.toUpper))
  | none => none

/-- Uppercase hex digit. -/
def isUpperHexChar (c : Char) : Bool :=
  (decide ('A' ≤ c) && decide (c ≤ 'F')) || (decide ('0' ≤ c) && decide (c ≤ '9'))

theorem isUpperHexChar_hexDigitChar_toUpper :
    ∀ n : Fin 16, isUpperHexChar (hexDigitChar n.val).toUpper = true := by
  decide

theorem mem_hexEncodeChars {bs : List (Fin 256)} {c : Char}
    (hc : c ∈ hexEncodeChars bs) : ∃ n : Fin 16, c = hexDigitChar n.val := by
  induction bs with
  | nil => simp [hexEncodeChars] at hc
  | cons b rest ih =>
    simp only [hexEncodeChars, List.map_cons, List.flatten_cons, List.mem_append,
      List.mem_cons, List.not_mem_nil, or_false] at hc
    rcases hc with (h | h) | h
    · exact ⟨⟨b.val / 16, by omega⟩, h⟩
    · exact ⟨⟨b.val % 16, by omega⟩, h⟩
    · exact ih (by simpa [hexEncodeChars] using h)

theorem all_upperHex_hexEncodeChars (bs : List (Fin 256)) :
    ((hexEncodeChars bs).map Char.toUpper).all isUpperHexChar = true := by
  rw [List.all_eq_true]
  intro c hc
  rcases List.mem_map.mp hc with ⟨c₀, hc₀, rfl⟩
  rcases mem_hexEncodeChars hc₀ with ⟨n, rfl⟩
  exact isUpperHexChar_hexDigitChar_toUpper n

theorem grab6_append {cap post : List Char} (hlen : cap.length = 6)
    (hall : cap.all isTokenChar = true) : grab6 (cap ++ post) = some cap := by
  have htake : (cap ++ post).take 6 = cap := by
    rw [← hlen, List.take_left]
  have hge : 6 ≤ (cap ++ post).length := by
    have := List.length_append cap post
    omega
  simp [grab6, htake, hall]
  omega

theorem isTokenChar_dash : isTokenChar '-' = false := by decide

theorem afterVer_hyphen {cap post : List Char} (hlen : cap.length = 6)
    (hall : cap.all isTokenChar = true) :
    afterVer ('-' :: (cap ++ post)) = some cap := by
  simp [afterVer, grab6_append hlen hall]

theorem afterVer_plain {cap post : List Char} (hlen : cap.length = 6)
    (hall : cap.all isTokenChar = true) :
    afterVer (cap ++ post) = some cap := by
  obtain ⟨c, cs, rfl⟩ : ∃ c cs, cap = c :: cs := by
    cases cap with
    | nil => simp at hlen
    | cons c cs => exact ⟨c, cs, rfl⟩
  have hc : isTokenChar c = true := by
    have h' : (c :: cs).all isTokenChar = true := hall
    simp only [List.all_cons, Bool.and_eq_true] at h'
    exact h'.1
  have hcne : (c == '-') = false := by
    by_cases hcd : c = '-'
    · subst hcd
      rw [isTokenChar_dash] at hc
      exact absurd hc (by decide)
    · simpa using hcd
  have hhead : ((c :: (cs ++ post)).head? == some '-') = false := by
    simpa [List.head?] using hcne
  have hshape : (c :: cs) ++ post = c :: (cs ++ post) := List.cons_append ..
  rw [hshape, afterVer, hhead]
  simpa using grab6_append hlen hall

theorem matchAt_variant {v e r : Char} {hy cap post : List Char}
    (hv : ciEq v 'V' = true) (he : ciEq e 'E' = true) (hr : ciEq r 'R' = true)
    (hhy : hy = [] ∨ hy = ['-'])
    (hlen : cap.length = 6) (hall : cap.all isTokenChar = true) :
    matchAt (v :: e :: r :: (hy ++ cap ++ post)) = some cap := by
  rcases hhy with rfl | rfl
  · have hred : matchAt (v :: e :: r :: (cap ++ post)) = afterVer (cap ++ post) := by
      simp [matchAt, hv, he, hr]
    simp only [List.nil_append]
    rw [hred]
    exact afterVer_plain hlen hall
  · have hred : matchAt (v :: e :: r :: ('-' :: (cap ++ post))) =
        afterVer ('-' :: (cap ++ post)) := by
      simp [matchAt, hv, he, hr]
    have hshape : (['-'] ++ cap ++ post) = '-' :: (cap ++ post) := by
      simp
    rw [hshape, hred]
    exact afterVer_hyphen hlen hall

theorem extractScan_first (l : List Char) :
    ∀ (k : Nat) (cap : List Char), (∀ i, i < k → matchAt (l.drop i) = none) →
      matchAt (l.drop k) = some cap → extractScan l = some cap := by
  induction l with
  | nil =>
    intro k cap _ hk
    simp [matchAt] at hk
  | cons c rest ih =>
    intro k cap hnone hk
    cases k with
    | zero =>
      simp only [List.drop_zero] at hk
      simp only [extractScan, hk]
    | succ k' =>
      have h0 : matchAt (c :: rest) = none := by
        simpa using hnone 0 (Nat.succ_pos k')
      simp only [extractScan, h0]
      exact ih k' cap (fun i hi => by simpa using hnone (i + 1) (by omega))
        (by simpa using hk)

/-- **C8, counterexample.** The message `"NEVERMORE11 VERABC123"` contains the
generated token `VERABC123` (= `generateVerificationToken` on bytes
`ab c1 23`) verbatim, yet extraction returns `VERMORE11`: the leftmost
`VER-?[A-Z0-9]{6}` match starts inside the word `NEVERMORE11`. -/
theorem extractVerificationToken_counterexample :
    generateVerificationToken 171 193 35 = "VERABC123" ∧
    "NEVERMORE11 VERABC123" =
      "NEVERMORE11 " ++ generateVerificationToken 171 193 35 ∧
    extractVerificationToken "NEVERMORE11 VERABC123" = some "VERMORE11" ∧
    some "VERMORE11" ≠ some (generateVerificationToken 171 193 35) := by
  decide

/-- **C8, amended.** Every generated token is `VER` followed by exactly 6
uppercase hex characters.  Extraction returns the normalization of the
*leftmost* `VER-?<6 alphanumerics>` match (case-insensitive): for every
free-text message in which an occurrence of a generated token — optionally
hyphenated after `VER` and in any letter case — is the leftmost match of the
pattern, extraction returns exactly that token, uppercased with the hyphen
stripped. -/
theorem generateToken_extract_roundtrip (b₁ b₂ b₃ : Fin 256)
    (pre post : List Char) (v e r : Char) (hy cap : List Char)
    (hv : ciEq v 'V' = true) (he : ciEq e 'E' = true) (hr : ciEq r 'R' = true)
    (hhy : hy = [] ∨ hy = ['-'])
    (hlen : cap.length = 6) (hall : cap.all isTokenChar = true)
    (hnorm : cap.map Char.toUpper = (hexEncodeChars [b₁, b₂, b₃]).map Char.toUpper)
    (hfirst : ∀ i, i < pre.length →
      matchAt ((pre ++ v :: e :: r :: (hy ++ cap ++ post)).drop i) = none) :
    ((hexEncodeChars [b₁, b₂, b₃]).map Char.toUpper).length = 6 ∧
    ((hexEncodeChars [b₁, b₂, b₃]).map Char.toUpper).all isUpperHexChar = true ∧
    generateVerificationToken b₁ b₂ b₃ =
      "VER" ++ String.mk ((hexEncodeChars [b₁, b₂, b₃]).map Char.toUpper) ∧
    extractVerificationToken
        (String.mk (pre ++ v :: e :: r :: (hy ++ cap ++ post))) =
      some (generateVerificationToken b₁ b₂ b₃) := by
  refine ⟨?_, all_upperHex_hexEncodeChars [b₁, b₂, b₃], rfl, ?_⟩
  · simp [hexEncodeChars]
  · have hdropped : (pre ++ v :: e :: r :: (hy ++ cap ++ post)).drop pre.length =
        v :: e :: r :: (hy ++ cap ++ post) := by
      rw [List.drop_left]
    have hmatch : matchAt ((pre ++ v :: e :: r :: (hy ++ cap ++ post)).drop pre.length) =
        some cap := by
      rw [hdropped]
      exact matchAt_variant hv he hr hhy hlen hall
    have hscan := extractScan_first _ pre.length cap hfirst hmatch
    simp only [extractVerificationToken, hscan, hnorm, generateVerificationToken]

/-- Witness message: `"code: ver-abc123!"` — lowercase, hyphenated occurrence
of the token generated from bytes `ab c1 23`. -/
theorem generateToken_extract_roundtrip_witness :
    extractVerificationToken "code: ver-abc123!" =
      some (generateVerificationToken 171 193 35) ∧
    generateVerificationToken 171 193 35 = "VERABC123" := by
  have h := generateToken_extract_roundtrip 171 193 35
    "code: ".data "!".data 'v' 'e' 'r' ['-'] "abc123".data
    (by decide) (by decide) (by decide) (.inr rfl) (by decide) (by decide)
    (by decide) (by decide)
  exact ⟨by simpa using h.2.2.2, by decide⟩

end Vritti
